import Mathlib

/-!
Verification of the session/context-budget subsystem of the
fastapi-youtube-summary-chat repository (app/conversational_ai, with the
near-duplicate app/conversational_groq consulted where a claim cites it).

The Python code is shallowly embedded: Redis lists become Lean lists, the
stored serialized entries become an inductive `Entry` (a stored string either
decodes to a `{role, content}` record or it does not), async functions become
pure state-passing functions, and the external pieces (the tiktoken encoder,
the JSON parser used on model output, the completion call) become explicit
parameters, since they are capabilities the core consumes but does not
implement.
-/

namespace ChatCore

/-- A chat message: the `{"role": ..., "content": ...}` dict used throughout
`service.py` and `utils.py`. -/
structure Msg where
  role : String
  content : String
deriving DecidableEq, Repr

/-- Model of `json.dumps({"role": r, "content": c})` for a message dict, as produced by
`append_message` / `save_history`.  Modelled up to character escaping: the
claims under study depend only on the serialized text being a function of the
message (and on wrapped raw text being carried verbatim), never on the precise
escape bytes. -/
def encodeMsg (m : Msg) : String :=
  "\x7b\"role\": \"" ++ m.role ++ "\", \"content\": \"" ++ m.content ++ "\"\x7d"

/-- One stored list entry in Redis.  Every entry the system itself writes is
`json.dumps` of a `{role, content}` dict, i.e. `ok m`; `bad raw` models a
stored string on which `json.loads` raises (the code's `except` branches). -/
inductive Entry where
  | ok (m : Msg)
  | bad (raw : String)
deriving DecidableEq, Repr

/-- The raw stored string of an entry. -/
def Entry.raw : Entry → String
  | .ok m => encodeMsg m
  | .bad s => s

/-- Model of `json.loads` on a stored entry, as a total function returning `none` where
the Python code would raise. -/
def Entry.decode? : Entry → Option Msg
  | .ok m => some m
  | .bad _ => none

/-- The per-entry recovery used by `get_history_async` (service.py:97-101) and
`get_history` (utils.py:21-25): a decodable entry yields its message, an
undecodable one is surfaced as a `system`-role message wrapping the raw
stored text. -/
def Entry.toMsg : Entry → Msg
  | .ok m => m
  | .bad s => ⟨"system", s⟩

/-- Redis `LRANGE key start stop`: inclusive slice, negative indices count
from the end, out-of-range indices are clamped (start below 0 to 0, stop
beyond the end to the last element), and an inverted range yields `[]`. -/
def lrange (l : List Entry) (start stop : Int) : List Entry :=
  let n : Int := l.length
  let s : Int := if start < 0 then max (n + start) 0 else start
  let e0 : Int := if stop < 0 then n + stop else stop
  let e : Int := min e0 (n - 1)
  if e < s then [] else (l.drop s.toNat).take (e - s + 1).toNat

/-- Model of `get_history_async(session_id, limit)` (service.py:89-102), as a function
of the stored log.  `if limit:` is Python truthiness: `None` and `0` both
take the full-log branch; otherwise the code calls
`lrange(key, max(0, -limit), -1)` — the `max(0, -limit)` is taken verbatim
from line 92. -/
def get_history_async (entries : List Entry) (limit : Option Int) : List Msg :=
  let strs :=
    match limit with
    | some l => if l = 0 then lrange entries 0 (-1) else lrange entries (max 0 (-l)) (-1)
    | none => lrange entries 0 (-1)
  strs.map Entry.toMsg

/-- Lemma: `lrange(key, 0, -1)` returns the whole list. -/
theorem lrange_zero_neg_one (l : List Entry) : lrange l 0 (-1) = l := by
  unfold lrange
  norm_num

/-- C1: refuted as stated.  `get_history_async` line 92 computes
`max(0, -limit)`, which is `0` for every positive `limit`, so the call is
`lrange(key, 0, -1)`: for every positive limit the function returns the FULL
stored log, not the most recent `limit` entries.  This theorem evaluates the
code on the whole class of failing inputs: with any positive limit the result
coincides with the no-limit (full log) result, and in particular on a 3-entry
log with `limit = 1` it returns all 3 messages instead of the most recent 1. -/
theorem get_history_ignores_positive_limit (entries : List Entry) (l : Int)
    (hl : 0 < l) :
    get_history_async entries (some l) = entries.map Entry.toMsg ∧
    get_history_async entries (some l) = get_history_async entries none := by
  have hne : l ≠ 0 := by omega
  have hmax : max 0 (-l) = (0 : Int) := by omega
  simp [get_history_async, hmax, if_neg hne, lrange_zero_neg_one]

/-- Concrete instance of `get_history_ignores_positive_limit`: a 3-entry log
queried with `limit = 1` yields all three messages (and not the single most
recent one). -/
theorem get_history_ignores_positive_limit_witness :
    (0 : Int) < 1 ∧
    (get_history_async
        [Entry.ok ⟨"user", "a"⟩, Entry.ok ⟨"assistant", "b"⟩, Entry.ok ⟨"user", "c"⟩]
        (some 1) =
      [⟨"user", "a"⟩, ⟨"assistant", "b"⟩, ⟨"user", "c"⟩] ∧
     get_history_async
        [Entry.ok ⟨"user", "a"⟩, Entry.ok ⟨"assistant", "b"⟩, Entry.ok ⟨"user", "c"⟩]
        (some 1) =
      get_history_async
        [Entry.ok ⟨"user", "a"⟩, Entry.ok ⟨"assistant", "b"⟩, Entry.ok ⟨"user", "c"⟩]
        none) :=
  ⟨by decide,
   get_history_ignores_positive_limit
     [Entry.ok ⟨"user", "a"⟩, Entry.ok ⟨"assistant", "b"⟩, Entry.ok ⟨"user", "c"⟩]
     1 (by decide)⟩

/-! ## BudgetTrimmer (`trim_for_token_limit`, service.py:210-226)

The token estimator `enc.encode`/`tiktoken` is an external capability; it is
modelled as an explicit parameter `tok : String → Nat`. -/

/-- Model of `count_tokens(messages, provider)` (service.py:230-242): the sum of the
estimated token counts of the `content` fields. -/
def count_tokens (tok : String → Nat) (ms : List Msg) : Nat :=
  (ms.map fun m => tok m.content).sum

/-- Model of `config.TOKEN_LIMITS.get(provider, 8192)` (service.py:212, config.py:34-37,
with the default env values). -/
def TOKEN_LIMITS (provider : String) : Nat :=
  if provider = "openai" then 128000 else if provider = "groq" then 6000 else 8192

/-- Model of `buffer = int(limit * 0.9)` (service.py:213).  For the three possible
limits (128000, 6000, 8192) the float computation truncates to 115200, 5400
and 7372, which is exactly `limit * 9 / 10` in natural-number arithmetic. -/
def bufferFor (provider : String) : Nat :=
  TOKEN_LIMITS provider * 9 / 10

/-- One pass of the inner `for` loop of `trim_for_token_limit`
(service.py:218-221): delete the first message whose role is not `"system"`
and stop; `none` when every message has role `"system"` (the loop's `else`
branch). -/
def removeFirstNonSystem : List Msg → Option (List Msg)
  | [] => none
  | m :: rest =>
    if m.role = "system" then (removeFirstNonSystem rest).map (m :: ·)
    else some rest

theorem removeFirstNonSystem_length :
    ∀ {ms ms' : List Msg}, removeFirstNonSystem ms = some ms' →
      ms'.length + 1 = ms.length := by
  intro ms
  induction ms with
  | nil => intro ms' h; simp [removeFirstNonSystem] at h
  | cons m rest ih =>
    intro ms' h
    by_cases hr : m.role = "system"
    · simp only [removeFirstNonSystem, if_pos hr, Option.map_eq_some'] at h
      obtain ⟨t, ht, rfl⟩ := h
      simp [← ih ht]
    · simp only [removeFirstNonSystem, if_neg hr, Option.some.injEq] at h
      subst h
      rfl

/-- The `while` loop of `trim_for_token_limit` (service.py:216-224): while the
token count exceeds the buffer, remove the earliest non-system message; if
only system messages remain (`for`'s `else`), stop and return the list. -/
def trimLoop (tok : String → Nat) (buffer : Nat) (ms : List Msg) : List Msg :=
  if count_tokens tok ms ≤ buffer then ms
  else
    match h : removeFirstNonSystem ms with
    | none => ms
    | some ms' => trimLoop tok buffer ms'
termination_by ms.length
decreasing_by
  have := removeFirstNonSystem_length h
  omega

/-- Model of `trim_for_token_limit(messages, provider)` (service.py:210-226). -/
def trim_for_token_limit (tok : String → Nat) (ms : List Msg) (provider : String) :
    List Msg :=
  trimLoop tok (bufferFor provider) ms

theorem trim_for_token_limit_eq_trimLoop (tok : String → Nat) (ms : List Msg)
    (provider : String) :
    trim_for_token_limit tok ms provider = trimLoop tok (bufferFor provider) ms := rfl

theorem removeFirstNonSystem_none_iff (ms : List Msg) :
    removeFirstNonSystem ms = none ↔ ∀ m ∈ ms, m.role = "system" := by
  induction ms with
  | nil => simp [removeFirstNonSystem]
  | cons m rest ih =>
    by_cases hr : m.role = "system"
    · simp [removeFirstNonSystem, hr, ih]
    · simp [removeFirstNonSystem, hr]

theorem removeFirstNonSystem_filter {ms ms' : List Msg}
    (h : removeFirstNonSystem ms = some ms') :
    ms'.filter (fun m => m.role == "system")
      = ms.filter (fun m => m.role == "system") := by
  induction ms generalizing ms' with
  | nil => simp [removeFirstNonSystem] at h
  | cons m rest ih =>
    by_cases hr : m.role = "system"
    · simp only [removeFirstNonSystem, if_pos hr, Option.map_eq_some'] at h
      obtain ⟨t, ht, rfl⟩ := h
      have hb : (m.role == "system") = true := by simp [hr]
      simp [List.filter_cons, hb, ih ht]
    · simp only [removeFirstNonSystem, if_neg hr, Option.some.injEq] at h
      subst h
      have hb : (m.role == "system") = false := by simp [hr]
      simp [List.filter_cons, hb]

/-- One iteration of the `while` body viewed as a total step: remove the
earliest non-system message, or leave the list unchanged when every message
is a system message. -/
def dropOldestNonSystem (ms : List Msg) : List Msg :=
  (removeFirstNonSystem ms).getD ms

theorem trimLoop_filter_system (tok : String → Nat) (b : Nat) (ms : List Msg) :
    (trimLoop tok b ms).filter (fun m => m.role == "system")
      = ms.filter (fun m => m.role == "system") := by
  induction ms using trimLoop.induct tok b with
  | case1 ms hle => rw [trimLoop, if_pos hle]
  | case2 ms hgt hnone => rw [trimLoop, if_neg hgt, hnone]
  | case3 ms hgt ms' hsome ih =>
    rw [trimLoop, if_neg hgt, hsome, ih, removeFirstNonSystem_filter hsome]

theorem trimLoop_iterate (tok : String → Nat) (b : Nat) (ms : List Msg) :
    ∃ k, trimLoop tok b ms = dropOldestNonSystem^[k] ms := by
  induction ms using trimLoop.induct tok b with
  | case1 ms hle =>
    exact ⟨0, by rw [trimLoop, if_pos hle]; rfl⟩
  | case2 ms hgt hnone =>
    exact ⟨0, by rw [trimLoop, if_neg hgt, hnone]; rfl⟩
  | case3 ms hgt ms' hsome ih =>
    obtain ⟨k, hk⟩ := ih
    refine ⟨k + 1, ?_⟩
    have hstep : trimLoop tok b ms = trimLoop tok b ms' := by
      rw [trimLoop, if_neg hgt, hsome]
    have hdrop : dropOldestNonSystem ms = ms' := by
      simp [dropOldestNonSystem, hsome]
    rw [hstep, hk, Function.iterate_succ_apply, hdrop]

theorem trimLoop_fixed (tok : String → Nat) (b : Nat) (ms : List Msg) :
    count_tokens tok (trimLoop tok b ms) ≤ b ∨
      removeFirstNonSystem (trimLoop tok b ms) = none := by
  induction ms using trimLoop.induct tok b with
  | case1 ms hle => left; rw [trimLoop, if_pos hle]; exact hle
  | case2 ms hgt hnone => right; rw [trimLoop, if_neg hgt, hnone]; exact hnone
  | case3 ms hgt ms' hsome ih => rw [trimLoop, if_neg hgt, hsome]; exact ih

/-- The conversational_ai trimmer stops and returns the list unchanged when
every message has role `"system"`, even while over budget (the `for` loop's
`else: break`, service.py:222-224). -/
theorem trimLoop_system_only_unchanged (tok : String → Nat) (b : Nat)
    (ms : List Msg) (hsys : ∀ m ∈ ms, m.role = "system") :
    trimLoop tok b ms = ms := by
  by_cases hle : count_tokens tok ms ≤ b
  · rw [trimLoop, if_pos hle]
  · rw [trimLoop, if_neg hle, (removeFirstNonSystem_none_iff ms).mpr hsys]

/-- C6: `trim` removes no `system`-role message at all (their sublist is
preserved verbatim), and what it removes is always the earliest-inserted
non-system message, one removal per front-to-back scan: the result is an
iterate of `dropOldestNonSystem`.  Stated for `trimLoop` at an arbitrary
budget; `trim_for_token_limit tok ms provider` is by definition
`trimLoop tok (bufferFor provider) ms`. -/
theorem trim_never_evicts_system_oldest_first (tok : String → Nat)
    (buffer : Nat) (ms : List Msg) :
    (trimLoop tok buffer ms).filter (fun m => m.role == "system")
        = ms.filter (fun m => m.role == "system") ∧
      ∃ k, trimLoop tok buffer ms = dropOldestNonSystem^[k] ms :=
  ⟨trimLoop_filter_system tok buffer ms, trimLoop_iterate tok buffer ms⟩

/-- C8: `trim` is idempotent, both for an arbitrary budget and for the
provider-derived budget of `trim_for_token_limit`. -/
theorem trim_idempotent (tok : String → Nat) (buffer : Nat) (ms : List Msg) :
    trimLoop tok buffer (trimLoop tok buffer ms) = trimLoop tok buffer ms ∧
      ∀ provider,
        trim_for_token_limit tok (trim_for_token_limit tok ms provider) provider
          = trim_for_token_limit tok ms provider := by
  constructor
  · rcases trimLoop_fixed tok buffer ms with h | h
    · rw [trimLoop, if_pos h]
    · by_cases hle : count_tokens tok (trimLoop tok buffer ms) ≤ buffer
      · rw [trimLoop, if_pos hle]
      · rw [trimLoop, if_neg hle, h]
  · intro provider
    rcases trimLoop_fixed tok (bufferFor provider) ms with h | h
    · rw [trim_for_token_limit, trim_for_token_limit, trimLoop, if_pos h]
    · by_cases hle :
        count_tokens tok (trimLoop tok (bufferFor provider) ms) ≤ bufferFor provider
      · rw [trim_for_token_limit, trim_for_token_limit, trimLoop, if_pos hle]
      · rw [trim_for_token_limit, trim_for_token_limit, trimLoop, if_neg hle, h]

/-! ## The conversational_groq copy of the trimmer
(app/conversational_groq/service.py:215-226).

That copy's `while True` loop has no `else: break` on its inner `for`: when
every remaining message has role `"system"` and the total still exceeds
`TOKEN_LIMIT`, the `for` finds nothing to pop and the `while` repeats on the
identical list forever.  The loop is embedded with explicit fuel: `none`
means the loop has not terminated within `fuel` iterations. -/

/-- Constant `TOKEN_LIMIT = 5500` (conversational_groq/service.py:23). -/
def TOKEN_LIMIT_groq : Nat := 5500

/-- The groq `trim_for_token_limit`: each fuel step is one `while True`
iteration (recompute total; break if within limit; otherwise pop the first
non-system message if any and loop). -/
def trim_for_token_limit_groq (tok : String → Nat) (limit : Nat) :
    Nat → List Msg → Option (List Msg)
  | 0, _ => none
  | fuel + 1, ms =>
    if count_tokens tok ms ≤ limit then some ms
    else trim_for_token_limit_groq tok limit fuel (dropOldestNonSystem ms)

/-- C4: refuted for the conversational_groq copy of `trim_for_token_limit`.
On a list of only `system`-role messages whose token total exceeds the limit,
no amount of fuel makes the loop terminate: each iteration finds no
non-system message to pop and re-enters `while True` with the identical
list.  (The conversational_ai copy does stop there and return the list
unchanged: `trimLoop_system_only_unchanged`.) -/
theorem trim_groq_diverges_on_system_only (tok : String → Nat) (limit : Nat)
    (ms : List Msg) (hsys : ∀ m ∈ ms, m.role = "system")
    (hover : limit < count_tokens tok ms) :
    ∀ fuel, trim_for_token_limit_groq tok limit fuel ms = none := by
  intro fuel
  induction fuel with
  | zero => rfl
  | succ n ih =>
    have hdrop : dropOldestNonSystem ms = ms := by
      simp [dropOldestNonSystem, (removeFirstNonSystem_none_iff ms).mpr hsys]
    rw [trim_for_token_limit_groq, if_neg (by omega), hdrop]
    exact ih

/-- Concrete instance: a single over-limit system message never lets the groq
trim loop finish (here after 1000 iterations of fuel, with the estimator
`String.length` and limit 2). -/
theorem trim_groq_diverges_on_system_only_witness :
    (∀ m ∈ [Msg.mk "system" "abc"], m.role = "system") ∧
      2 < count_tokens String.length [Msg.mk "system" "abc"] ∧
      trim_for_token_limit_groq String.length 2 1000 [Msg.mk "system" "abc"] = none :=
  ⟨by decide, by decide,
   trim_groq_diverges_on_system_only String.length 2 [Msg.mk "system" "abc"]
     (by decide) (by decide) 1000⟩

/-! ## ContextCompactor (`append_message` service.py:67-86,
`summarize_and_store` / `save_history` utils.py:28-44) -/

/-- Constant `MAX_HISTORY_MESSAGES = 50` (utils.py:14). -/
def MAX_HISTORY_MESSAGES : Nat := 50

/-- The summary string built by `summarize_and_store` (utils.py:41-42):
`"Summary of earlier conversation: "` followed by the space-join of the
truthy (non-empty) `content` fields of the old messages. -/
def summaryText (olds : List Msg) : String :=
  "Summary of earlier conversation: " ++
    String.intercalate " " ((olds.filter fun m => m.content != "").map Msg.content)

/-- The synthetic summary message of `summarize_and_store` (utils.py:42). -/
def summaryMsg (olds : List Msg) : Msg :=
  ⟨"system", summaryText olds⟩

/-- Model of `save_history` (utils.py:28-34) at the log level: delete the key, then
rpush `json.dumps(msg)` for each message. -/
def save_history_log (history : List Msg) : List Entry :=
  history.map Entry.ok

/-- Model of `json.loads` over a list of stored entries, failing (raising) if any
single entry fails — the comprehension inside the `try` of
`append_message` (service.py:79-81). -/
def decodeAll : List Entry → Option (List Msg)
  | [] => some []
  | e :: rest =>
    match e.decode?, decodeAll rest with
    | some m, some ms => some (m :: ms)
    | _, _ => none

/-- The message an entry is replaced by in the `except` branch of
`append_message` (service.py:82-84): a `system`-role message wrapping the raw
stored string. -/
def wrapRaw (e : Entry) : Msg :=
  ⟨"system", e.raw⟩

/-- The overflow branch of `append_message` (service.py:74-86), applied to
the post-push log: `old_count = length - MAX_HISTORY_MESSAGES`, split via
`lrange(key, 0, old_count - 1)` / `lrange(key, old_count, -1)`, decode both
partitions inside one `try` (one failure anywhere wraps every entry of both
partitions as a raw-text system message), and replace the log with
`save_history` of `[summary] + recent`. -/
def compactAfterPush (log' : List Entry) : List Entry :=
  match decodeAll (lrange log' 0 ((log'.length : Int) - MAX_HISTORY_MESSAGES - 1)),
        decodeAll (lrange log' ((log'.length : Int) - MAX_HISTORY_MESSAGES) (-1)) with
  | some old, some recent => save_history_log (summaryMsg old :: recent)
  | _, _ =>
    save_history_log
      (summaryMsg
          ((lrange log' 0 ((log'.length : Int) - MAX_HISTORY_MESSAGES - 1)).map wrapRaw) ::
        (lrange log' ((log'.length : Int) - MAX_HISTORY_MESSAGES) (-1)).map wrapRaw)

/-- Model of `append_message(session_id, role, content)` (service.py:67-86) restricted
to its effect on the stored log (TTL refreshes are modelled with the session
state, below): rpush the serialized message; if `llen` now exceeds
`MAX_HISTORY_MESSAGES`, run the compaction branch. -/
def append_message_log (log : List Entry) (role content : String) : List Entry :=
  if MAX_HISTORY_MESSAGES < (log ++ [Entry.ok ⟨role, content⟩]).length then
    compactAfterPush (log ++ [Entry.ok ⟨role, content⟩])
  else log ++ [Entry.ok ⟨role, content⟩]

/-- Lemma: `lrange(key, 0, k - 1)` is `take k`, for `1 ≤ k ≤ length`. -/
theorem lrange_take (l : List Entry) (k : Nat) (h1 : 1 ≤ k) (h2 : k ≤ l.length) :
    lrange l 0 ((k : Int) - 1) = l.take k := by
  unfold lrange
  have hmin : min ((k : Int) - 1) ((l.length : Int) - 1) = (k : Int) - 1 := by
    have : (k : Int) ≤ (l.length : Int) := by exact_mod_cast h2
    omega
  have hl : l ≠ [] := by
    intro h
    subst h
    simp at h2
    omega
  norm_num [hmin]
  simp only [if_neg (by omega : ¬ (k = 0))]
  rw [if_neg (by push_neg; exact ⟨by omega, hl⟩), hmin]
  have : ((k : Int) - 1 + 1).toNat = k := by omega
  rw [this]

/-- Lemma: `lrange(key, k, -1)` is `drop k`. -/
theorem lrange_drop (l : List Entry) (k : Nat) :
    lrange l (k : Int) (-1) = l.drop k := by
  unfold lrange
  have h1 : ¬ ((k : Int) < 0) := by omega
  by_cases hk : k < l.length
  · norm_num [if_neg h1]
    rw [if_neg (by omega : ¬ ((l.length : Int) < (k : Int) + 1))]
    have harg : ((l.length : Int) + -1 - (k : Int) + 1).toNat = (l.drop k).length := by
      simp
      omega
    rw [harg, List.take_length]
  · norm_num [if_neg h1]
    rw [if_pos (by omega : ((l.length : Int) < (k : Int) + 1)),
      List.drop_eq_nil_of_le (by omega)]

theorem decodeAll_map_ok (l : List Msg) : decodeAll (l.map Entry.ok) = some l := by
  induction l with
  | nil => rfl
  | cons m rest ih => simp [decodeAll, Entry.decode?, ih]

theorem decodeAll_eq_none_of_mem {l : List Entry} {e : Entry}
    (he : e ∈ l) (hd : e.decode? = none) : decodeAll l = none := by
  induction l with
  | nil => simp at he
  | cons a rest ih =>
    rcases List.mem_cons.mp he with rfl | hmem
    · cases hrest : decodeAll rest <;> simp [decodeAll, hd, hrest]
    · cases ha : a.decode? <;> simp [decodeAll, ha, ih hmem]

/-- Lemma: `append_message` with the two `lrange` calls rewritten as `take`/`drop`
of the post-push log, for a log that overflows after the push. -/
theorem append_message_log_over (log : List Entry) (role content : String)
    (h : MAX_HISTORY_MESSAGES < log.length + 1) :
    append_message_log log role content =
      match
        decodeAll ((log ++ [Entry.ok ⟨role, content⟩]).take
          (log.length + 1 - MAX_HISTORY_MESSAGES)),
        decodeAll ((log ++ [Entry.ok ⟨role, content⟩]).drop
          (log.length + 1 - MAX_HISTORY_MESSAGES)) with
      | some old, some recent => save_history_log (summaryMsg old :: recent)
      | _, _ =>
        save_history_log
          (summaryMsg (((log ++ [Entry.ok ⟨role, content⟩]).take
              (log.length + 1 - MAX_HISTORY_MESSAGES)).map wrapRaw) ::
            ((log ++ [Entry.ok ⟨role, content⟩]).drop
              (log.length + 1 - MAX_HISTORY_MESSAGES)).map wrapRaw) := by
  unfold append_message_log compactAfterPush
  have hlen : (log ++ [Entry.ok ⟨role, content⟩]).length = log.length + 1 := by simp
  rw [if_pos (by omega)]
  have hcast1 :
      ((log ++ [Entry.ok ⟨role, content⟩]).length : Int) - (MAX_HISTORY_MESSAGES : Int) - 1
        = (((log ++ [Entry.ok ⟨role, content⟩]).length - MAX_HISTORY_MESSAGES : Nat) : Int)
            - 1 := by
    omega
  have hcast2 :
      ((log ++ [Entry.ok ⟨role, content⟩]).length : Int) - (MAX_HISTORY_MESSAGES : Int)
        = (((log ++ [Entry.ok ⟨role, content⟩]).length - MAX_HISTORY_MESSAGES : Nat) : Int) := by
    omega
  have hk1 : 1 ≤ (log ++ [Entry.ok ⟨role, content⟩]).length - MAX_HISTORY_MESSAGES := by
    omega
  have hk2 : (log ++ [Entry.ok ⟨role, content⟩]).length - MAX_HISTORY_MESSAGES
      ≤ (log ++ [Entry.ok ⟨role, content⟩]).length := by omega
  rw [hcast1, hcast2, lrange_take _ _ hk1 hk2, lrange_drop]
  rw [hlen]

/-- C5, amended with the decodability proviso: for a session log of
decodable entries whose length exceeds `MAX_HISTORY_MESSAGES` after the push,
the rewritten stored log is exactly `[summaryMessage] + recent` with `recent`
the last `MAX_HISTORY_MESSAGES` pre-compaction entries unchanged, the new
length is `1 + MAX_HISTORY_MESSAGES`, and the summary message has role
`system`.  (Without the proviso the claim fails:
`append_compact_counterexample`.) -/
theorem append_compact_all_decodable (msgs : List Msg) (role content : String)
    (h : MAX_HISTORY_MESSAGES < msgs.length + 1) :
    append_message_log (msgs.map Entry.ok) role content
        = Entry.ok (summaryMsg ((msgs ++ [Msg.mk role content]).take
              (msgs.length + 1 - MAX_HISTORY_MESSAGES)))
          :: (msgs.map Entry.ok ++ [Entry.ok ⟨role, content⟩]).drop
              (msgs.length + 1 - MAX_HISTORY_MESSAGES)
      ∧ (append_message_log (msgs.map Entry.ok) role content).length
          = 1 + MAX_HISTORY_MESSAGES
      ∧ (summaryMsg ((msgs ++ [Msg.mk role content]).take
          (msgs.length + 1 - MAX_HISTORY_MESSAGES))).role = "system" := by
  have hmap : msgs.map Entry.ok ++ [Entry.ok ⟨role, content⟩]
      = (msgs ++ [Msg.mk role content]).map Entry.ok := by simp
  have hmain : append_message_log (msgs.map Entry.ok) role content
      = Entry.ok (summaryMsg ((msgs ++ [Msg.mk role content]).take
            (msgs.length + 1 - MAX_HISTORY_MESSAGES)))
        :: (msgs.map Entry.ok ++ [Entry.ok ⟨role, content⟩]).drop
            (msgs.length + 1 - MAX_HISTORY_MESSAGES) := by
    rw [append_message_log_over _ _ _ (by simpa using h)]
    simp only [List.length_map]
    rw [hmap, ← List.map_take, ← List.map_drop, decodeAll_map_ok, decodeAll_map_ok]
    simp [save_history_log, List.map_drop]
  refine ⟨hmain, ?_, rfl⟩
  rw [hmain]
  simp
  omega

/-- Concrete instance of the amended C5: appending the 51st message to a log
of 50 decodable entries produces a log of length `1 + MAX_HISTORY_MESSAGES`. -/
theorem append_compact_all_decodable_witness :
    MAX_HISTORY_MESSAGES < (List.replicate 50 (Msg.mk "user" "a")).length + 1 ∧
    (append_message_log ((List.replicate 50 (Msg.mk "user" "a")).map Entry.ok)
        "user" "hi").length = 1 + MAX_HISTORY_MESSAGES :=
  ⟨by decide,
   (append_compact_all_decodable (List.replicate 50 (Msg.mk "user" "a")) "user" "hi"
     (by decide)).2.1⟩

/-- C5 as stated is false: on a 50-entry log whose first entry does not
decode, appending one more message rewrites the log so that its tail is NOT
the last `MAX_HISTORY_MESSAGES` pre-compaction entries unchanged (every
recent entry got wrapped as a `system`-role message holding its raw text). -/
theorem append_compact_counterexample :
    (append_message_log
        (Entry.bad "oops" :: List.replicate 49 (Entry.ok (Msg.mk "user" "a")))
        "user" "hi").drop 1
      ≠ ((Entry.bad "oops" :: List.replicate 49 (Entry.ok (Msg.mk "user" "a")))
          ++ [Entry.ok (Msg.mk "user" "hi")]).drop 1 := by
  decide

/-- C10: decoding during compaction is all-or-nothing.  If any single stored
entry of the overflowing log fails to decode, then the rewritten log is the
summary of the wrapped old partition followed by EVERY recent entry wrapped
as a `system`-role message holding its raw stored text; the length is still
`1 + MAX_HISTORY_MESSAGES`, and every entry of the rewritten log carries role
`system`. -/
theorem append_wraps_all_on_undecodable (entries : List Entry)
    (role content : String) (e : Entry)
    (hlen : MAX_HISTORY_MESSAGES < entries.length + 1)
    (he : e ∈ entries) (hbad : e.decode? = none) :
    append_message_log entries role content
        = Entry.ok (summaryMsg (((entries ++ [Entry.ok ⟨role, content⟩]).take
              (entries.length + 1 - MAX_HISTORY_MESSAGES)).map wrapRaw))
          :: ((entries ++ [Entry.ok ⟨role, content⟩]).drop
              (entries.length + 1 - MAX_HISTORY_MESSAGES)).map
                (fun e' => Entry.ok (wrapRaw e'))
      ∧ (append_message_log entries role content).length = 1 + MAX_HISTORY_MESSAGES
      ∧ ∀ e' ∈ append_message_log entries role content,
          ∃ m, e' = Entry.ok m ∧ m.role = "system" := by
  have hepush : e ∈ entries ++ [Entry.ok ⟨role, content⟩] :=
    List.mem_append.mpr (Or.inl he)
  have hsplit :
      e ∈ (entries ++ [Entry.ok ⟨role, content⟩]).take
          (entries.length + 1 - MAX_HISTORY_MESSAGES) ∨
        e ∈ (entries ++ [Entry.ok ⟨role, content⟩]).drop
          (entries.length + 1 - MAX_HISTORY_MESSAGES) := by
    rw [← List.mem_append, List.take_append_drop]
    exact hepush
  have hmain : append_message_log entries role content
      = Entry.ok (summaryMsg (((entries ++ [Entry.ok ⟨role, content⟩]).take
            (entries.length + 1 - MAX_HISTORY_MESSAGES)).map wrapRaw))
        :: ((entries ++ [Entry.ok ⟨role, content⟩]).drop
            (entries.length + 1 - MAX_HISTORY_MESSAGES)).map
              (fun e' => Entry.ok (wrapRaw e')) := by
    rw [append_message_log_over _ _ _ hlen]
    rcases hsplit with htake | hdrop
    · rw [decodeAll_eq_none_of_mem htake hbad]
      cases hx : decodeAll ((entries ++ [Entry.ok ⟨role, content⟩]).drop
          (entries.length + 1 - MAX_HISTORY_MESSAGES)) <;>
        simp [save_history_log, List.map_map, Function.comp_def]
    · rw [decodeAll_eq_none_of_mem hdrop hbad]
      cases hx : decodeAll ((entries ++ [Entry.ok ⟨role, content⟩]).take
          (entries.length + 1 - MAX_HISTORY_MESSAGES)) <;>
        simp [save_history_log, List.map_map, Function.comp_def]
  refine ⟨hmain, ?_, ?_⟩
  · rw [hmain]
    simp
    omega
  · intro e' he'
    rw [hmain] at he'
    rcases List.mem_cons.mp he' with rfl | hmem
    · exact ⟨_, rfl, rfl⟩
    · obtain ⟨x, _, rfl⟩ := List.mem_map.mp hmem
      exact ⟨wrapRaw x, rfl, rfl⟩

/-- Concrete instance of C10: a 50-entry log whose second entry is raw
undecodable text, plus one appended message, rewrites to a log of length
`1 + MAX_HISTORY_MESSAGES` in which every entry has role `system`. -/
theorem append_wraps_all_on_undecodable_witness :
    MAX_HISTORY_MESSAGES <
        (Entry.ok (Msg.mk "assistant" "b") :: Entry.bad "zap" ::
          List.replicate 48 (Entry.ok (Msg.mk "assistant" "b"))).length + 1 ∧
      (append_message_log
          (Entry.ok (Msg.mk "assistant" "b") :: Entry.bad "zap" ::
            List.replicate 48 (Entry.ok (Msg.mk "assistant" "b")))
          "user" "q").length = 1 + MAX_HISTORY_MESSAGES :=
  ⟨by decide,
   (append_wraps_all_on_undecodable
     (Entry.ok (Msg.mk "assistant" "b") :: Entry.bad "zap" ::
       List.replicate 48 (Entry.ok (Msg.mk "assistant" "b")))
     "user" "q" (Entry.bad "zap") (by decide) (by decide) rfl).2.1⟩

/-! ## MessageStore session lifecycle (`create_session_if_missing`,
service.py:47-64)

Redis state for one session key: the message list (an empty list key does
not exist in Redis — popping the last element deletes the key and its TTL),
the `:meta` hash (modelled by its single `created_at` field), and the TTLs
of both keys.  `EXPIRE` on a nonexistent key is a no-op. -/

/-- Constant `SESSION_TTL_SECONDS` (config.py:13, default env value 3600). -/
def SESSION_TTL_SECONDS : Nat := 3600

structure SessionState where
  log : List Entry
  meta : Option String
  logTTL : Option Nat
  metaTTL : Option Nat
deriving DecidableEq, Repr

/-- A session no request has touched yet: no log key, no meta key. -/
def emptySession : SessionState :=
  ⟨[], none, none, none⟩

/-- Model of `create_session_if_missing` (service.py:47-64) for a fixed resolved id,
with `now` the `created_at` timestamp string.  `exists = redis.exists(key)`
checks the LIST key only (not `:meta`); an empty list means the key is
absent.  When absent: `hset` writes (or overwrites) `created_at`, `expire`
arms the meta TTL, then `rpush` of a dummy entry creates the list key,
`expire` arms its TTL, and `lpop` removes the dummy — which empties the
list, so Redis deletes the list key together with its TTL. -/
def create_session_if_missing (now : String) (st : SessionState) : SessionState :=
  if st.log ≠ [] then
    { st with
      logTTL := some SESSION_TTL_SECONDS,
      metaTTL := if st.meta.isSome then some SESSION_TTL_SECONDS else st.metaTTL }
  else
    { log := [],
      meta := some now,
      logTTL := none,
      metaTTL := some SESSION_TTL_SECONDS }

theorem create_session_preserves_log (now : String) (st : SessionState) :
    (create_session_if_missing now st).log = st.log := by
  unfold create_session_if_missing
  by_cases h : st.log = []
  · rw [if_neg (by simpa using h)]
    exact h.symm
  · rw [if_pos h]

/-- C7: refuted.  `create_session_if_missing` tests existence on the LIST
key, but session creation leaves the list empty (the `rpush`/`lpop` dance
deletes the key again), so a second call with the same id — with no message
appended in between — re-enters the creation branch and `hset` OVERWRITES
`created_at` with the new timestamp.  `createdAt` is thus not written
exactly once, and a subsequent `ensureSession` call alters stored metadata
exactly in the empty-log case the claim singles out. -/
theorem create_session_overwrites_created_at (t1 t2 : String) (st : SessionState)
    (hempty : st.log = []) :
    (create_session_if_missing t1 st).meta = some t1 ∧
      (create_session_if_missing t2 (create_session_if_missing t1 st)).meta = some t2 := by
  have h1 : create_session_if_missing t1 st
      = { log := [], meta := some t1, logTTL := none,
          metaTTL := some SESSION_TTL_SECONDS } := by
    unfold create_session_if_missing
    rw [if_neg (by simpa using hempty)]
  constructor
  · rw [h1]
  · rw [h1]
    unfold create_session_if_missing
    norm_num

/-- Concrete instance of C7's refutation: two `ensureSession` calls on the
same fresh session id, at timestamps "100.0" then "200.0", leave
`created_at = "200.0"` — the second call rewrote the metadata instead of
only refreshing TTLs. -/
theorem create_session_overwrites_created_at_witness :
    emptySession.log = [] ∧
      (create_session_if_missing "100.0" emptySession).meta = some "100.0" ∧
      (create_session_if_missing "200.0"
          (create_session_if_missing "100.0" emptySession)).meta = some "200.0" :=
  ⟨rfl,
   (create_session_overwrites_created_at "100.0" "200.0" emptySession rfl).1,
   (create_session_overwrites_created_at "100.0" "200.0" emptySession rfl).2⟩

/-! ## Pre-compaction of an oversized context (`safe_context`,
service.py:199-208) -/

/-- Model of `config.SUMMARY_TRIGGER[provider]` (config.py:40-43, default env
values).  At startup `config.PROVIDER` is validated to be `"groq"` or
`"openai"` (service.py:39-40), so the dict lookup only ever sees those two
keys; the non-openai branch is the groq value. -/
def SUMMARY_TRIGGER (provider : String) : Nat :=
  if provider = "openai" then 110000 else 5000

/-- The store rewrite performed by
`summarize_and_store(session_id, old, recent)` (utils.py:36-44): the new
value of the target log is `save_history` of `[summary] + recent`.  The
Python function is annotated `-> None` and has NO return statement: its
return VALUE is `None`, which matters for `safe_context` below. -/
def summarize_and_store_log (old recent : List Msg) : List Entry :=
  save_history_log (summaryMsg old :: recent)

/-- Model of `safe_context(context)` (service.py:199-208), with the store list under
key `"{REDIS_PREFIX}None"` (the `session_id=None` target of the
`summarize_and_store` call on line 205) threaded as `noneKeyLog`.  When the
estimated token count exceeds the trigger, the code runs
`summary = await summarize_and_store(None, [{"role": "system", "content": context}], [])`
and returns `summary if summary else context`; `summarize_and_store`
returns `None`, so the returned string is ALWAYS the original `context` —
the computed summary only lands in the `None` store key. -/
def safe_context (tok : String → Nat) (provider : String) (context : String)
    (noneKeyLog : List Entry) : String × List Entry :=
  if SUMMARY_TRIGGER provider < tok context then
    (context, summarize_and_store_log [⟨"system", context⟩] [])
  else (context, noneKeyLog)

/-- C2: refuted.  For every context whose estimated token count exceeds the
summarization trigger, `safe_context` still returns the ORIGINAL context
string (the summary is stored under the unrelated `None` session key but
never substituted, because `summarize_and_store` returns `None` and
`summary if summary else context` falls back to `context`).  The original
oversized text therefore flows verbatim into `user_content` and the message
list handed to the completion call. -/
theorem safe_context_returns_original (tok : String → Nat) (provider : String)
    (context : String) (noneKeyLog : List Entry)
    (hover : SUMMARY_TRIGGER provider < tok context) :
    (safe_context tok provider context noneKeyLog).1 = context := by
  unfold safe_context
  rw [if_pos hover]

/-- Concrete instance: a context estimated at 6000 tokens, over the groq
trigger (5000), comes back unchanged from `safe_context` (the estimator is a
pluggable capability; here it is a constant function). -/
theorem safe_context_returns_original_witness :
    SUMMARY_TRIGGER "groq" < (fun _ : String => 6000) "long document" ∧
      (safe_context (fun _ : String => 6000) "groq" "long document" []).1
        = "long document" :=
  ⟨by decide,
   safe_context_returns_original (fun _ : String => 6000) "groq" "long document" []
     (by decide)⟩

/-! ## ResponseExtractor (`extract_json_from_text`, utils.py:59-73) and the
JSON-parsing section of `ask` (service.py:178-186)

`json.loads` on the brace-delimited span is an external parser; it is
modelled by an oracle `parse : String → Option ParsedPayload`.  A span that
parses must be a JSON object (it starts with `{` and ends with `}`), and the
orchestrator reads exactly two keys from it. -/

/-- The view of a parsed JSON object that `ask` consumes: the value of the
`"answer"` key (if present) and the `str()`-coerced elements of the
`"suggestions"` key (if present).  `none` fields model absent keys, making
`parsed.get(key, default)` take its default. -/
structure ParsedPayload where
  answer : Option String
  suggestions : Option (List String)
deriving DecidableEq, Repr

/-- Python `text.find(c)`: index of the first occurrence, `-1` if absent. -/
def pyFind (s : String) (c : Char) : Int :=
  match s.toList.indexOf? c with
  | some i => (i : Int)
  | none => -1

/-- Python `text.rfind(c)`: index of the last occurrence, `-1` if absent. -/
def pyRfind (s : String) (c : Char) : Int :=
  match s.toList.reverse.indexOf? c with
  | some i => (s.toList.length : Int) - 1 - i
  | none => -1

/-- Python `text[a:b]` for `0 ≤ a ≤ b`. -/
def pySlice (s : String) (a b : Nat) : String :=
  String.mk ((s.toList.drop a).take (b - a))

/-- Python `str.strip()`: drop leading and trailing whitespace (the
payloads in scope are ASCII, where `Char.isWhitespace` agrees with
`str.strip`). -/
def pyStrip (s : String) : String :=
  String.mk (((s.toList.dropWhile Char.isWhitespace).reverse.dropWhile
    Char.isWhitespace).reverse)

/-- Model of `extract_json_from_text(text)` (utils.py:59-73): locate the first `{`
and the last `}`; if both exist with the closing one strictly later, try to
parse the enclosed span; on success return `(parsed, span)`, on parse
failure or missing delimiters return the empty result `({}, "")` — the `{}`
is modelled as `none`. -/
def extract_json_from_text (parse : String → Option ParsedPayload)
    (text : String) : Option ParsedPayload × String :=
  if pyFind text '\x7b' ≠ -1 ∧ pyRfind text '\x7d' ≠ -1 ∧
      pyFind text '\x7b' < pyRfind text '\x7d' then
    match parse (pySlice text (pyFind text '\x7b').toNat
        ((pyRfind text '\x7d').toNat + 1)) with
    | some parsed =>
      (some parsed, pySlice text (pyFind text '\x7b').toNat
        ((pyRfind text '\x7d').toNat + 1))
    | none => (none, "")
  else (none, "")

/-- The response-parsing section of `ask` (service.py:178-186):
`answer = parsed.get("answer", "").strip()` and
`suggestions = [str(s).strip() for s in parsed.get("suggestions", [])][:3]`.
When extraction yields the empty payload, `.get` returns its defaults and no
exception is raised, so the `except` branch that would fall back to the raw
text is NOT taken: the answer becomes `""`.  (A non-string `"answer"` value
would raise on `.strip()` and take the raw-text fallback; the payload model
restricts to string-valued fields, which covers every case the claims
quantify over.) -/
def parse_answer (parse : String → Option ParsedPayload)
    (assistant_text : String) : String × List String :=
  match (extract_json_from_text parse assistant_text).1 with
  | some p =>
    (pyStrip (p.answer.getD ""), ((p.suggestions.getD []).map pyStrip).take 3)
  | none => (pyStrip "", [])

/-! ## ConversationOrchestrator (`ask`, service.py:122-197) -/

/-- The fixed system instruction appended before the user turn
(service.py:141-146); apostrophes written as `\x27`. -/
def system_prompt : String :=
  "You are a helpful assistant. Use the provided context when relevant.\n\n" ++
    "Respond ONLY in valid JSON with keys:\n" ++
    "  \x27answer\x27 (string)\n" ++
    "  \x27suggestions\x27 (array of exactly 3 strings)\n"

/-- Model of `normalize_messages(history)` (utils.py:46-57): every `Msg` has both
keys, so the membership test always passes and the normalization is the
`str().strip()` of both fields. -/
def normalize_messages (history : List Msg) : List Msg :=
  history.map fun m => ⟨pyStrip m.role, pyStrip m.content⟩

/-- The action dispatch building `user_content` (service.py:153-160); the
default branch is Python `question or context` (the question when
non-empty, else the context). -/
def build_user_content (action context question : String) : String :=
  if action = "qa" then
    "Context:\n" ++ context ++ "\n\nQuestion:\n" ++ question
  else if action = "summary" then
    "Summarize the following content:\n\n" ++ context
  else if action = "expand" then
    "Expand and explain the following content:\n\n" ++ context
  else if question ≠ "" then question else context

/-- Model of `if not session_id: session_id = str(uuid.uuid4())` (service.py:48-49):
`None` and `""` are falsy and replaced by a fresh identifier (uuid
generation is external randomness, passed in as `freshId`). -/
def resolve_session_id (session_id : Option String) (freshId : String) : String :=
  match session_id with
  | some s => if s = "" then freshId else s
  | none => freshId

/-- Model of `append_message` (service.py:67-86) on the full session state: push (and
possibly compact) the log, and refresh both TTLs (`expire` on the absent
meta key of a never-ensured session is a no-op). -/
def append_message_session (st : SessionState) (role content : String) :
    SessionState :=
  { log := append_message_log st.log role content,
    meta := st.meta,
    logTTL := some SESSION_TTL_SECONDS,
    metaTTL := if st.meta.isSome then some SESSION_TTL_SECONDS else st.metaTTL }

/-- Model of `make_session_key(session_id)` (service.py:43-44):
`f"{config.REDIS_PREFIX}{session_id}"` with the default namespace value
`"aichat"` (config.py:15).  `save_history(None, ...)` keys through the same
f-string, where Python renders the `None` object as the four characters
`"None"` — so its target key is `make_session_key "None"`, which ALIASES the
session key of a caller-supplied session id `"None"`. -/
def make_session_key (session_id : String) : String :=
  "aichat" ++ session_id

theorem make_session_key_inj {a b : String}
    (h : make_session_key a = make_session_key b) : a = b := by
  obtain ⟨da⟩ := a
  obtain ⟨db⟩ := b
  unfold make_session_key at h
  have hd : ("aichat".data ++ da) = ("aichat".data ++ db) := congrArg String.data h
  exact congrArg String.mk (List.append_cancel_left hd)

/-- The whole key-value store an `ask` request can touch: for every base
key, the Redis list stored there, its TTL, the `created_at` field of the
associated `:meta` hash, and that hash's TTL.  Distinct session ids map to
distinct keys, but `make_session_key "None"` is one single location shared
between session id `"None"` and the `summarize_and_store(None, ...)` write
of `safe_context`. -/
structure RedisState where
  lists : String → List Entry
  listTTL : String → Option Nat
  meta : String → Option String
  metaTTL : String → Option Nat

/-- Projection of the store onto one session's key pair, in the
`SessionState` form the per-session operations are defined on. -/
def RedisState.session (st : RedisState) (key : String) : SessionState :=
  ⟨st.lists key, st.meta key, st.listTTL key, st.metaTTL key⟩

/-- Write one session's key pair back into the store. -/
def RedisState.setSession (st : RedisState) (key : String) (s : SessionState) :
    RedisState :=
  { lists := fun k => if k = key then s.log else st.lists k,
    listTTL := fun k => if k = key then s.logTTL else st.listTTL k,
    meta := fun k => if k = key then s.meta else st.meta k,
    metaTTL := fun k => if k = key then s.metaTTL else st.metaTTL k }

/-- A store with no keys at all. -/
def emptyRedis : RedisState :=
  ⟨fun _ => [], fun _ => none, fun _ => none, fun _ => none⟩

/-- Model of `save_history(session_id, history)` (utils.py:28-34) at an
explicit key: delete the list key, rpush `json.dumps(msg)` for each
message, and set its TTL (deleting then pushing nothing leaves the key
absent, hence without TTL).  The meta hash is untouched. -/
def save_history_keyed (st : RedisState) (key : String) (history : List Msg) :
    RedisState :=
  { st with
    lists := fun k => if k = key then save_history_log history else st.lists k,
    listTTL := fun k =>
      if k = key then (if history.isEmpty then none else some SESSION_TTL_SECONDS)
      else st.listTTL k }

/-- Model of `summarize_and_store(session_id, old, recent)` (utils.py:36-44) at an
explicit key: `save_history` of `[summary] + recent`.  Its Python return
value is `None` (no return statement). -/
def summarize_and_store_keyed (st : RedisState) (key : String)
    (old recent : List Msg) : RedisState :=
  save_history_keyed st key (summaryMsg old :: recent)

/-- Model of `safe_context(context)` (service.py:199-208) with its store effect at
the real key: when the estimate exceeds the trigger, the code runs
`summary = await summarize_and_store(None, [{"role": "system", "content": context}], [])`,
which rewrites the list at `make_session_key "None"`; the returned string
is `summary if summary else context` = `context`, since
`summarize_and_store` returns `None` (the pure-value model of this same
expression is `safe_context`, proved original in
`safe_context_returns_original`). -/
def safe_context_keyed (tok : String → Nat) (provider context : String)
    (st : RedisState) : String × RedisState :=
  if SUMMARY_TRIGGER provider < tok context then
    (context,
      summarize_and_store_keyed st (make_session_key "None") [⟨"system", context⟩] [])
  else (context, st)

/-- The success payload of `ask` (service.py:192-197). -/
structure AskResult where
  action : String
  response : String
  suggestions : List String
  session_id : String
deriving DecidableEq, Repr

/-- Model of `ask(session_id, action, context, question, history_override)`
(service.py:122-197), acting on the keyed store.  External capabilities are
parameters: `tok` the token estimator, `parse` the JSON parser,
`completion` the outcome of `call_model` on this request (`Except.error` =
provider error/timeout propagating out of the awaited call; `Except.ok
text` = the assistant text of a successful completion; a successful
completion with an unexpected shape raises before any persistence, like
the error case).  The returned state reflects every store write the
control path performs before returning or raising — including
`safe_context`'s write at `make_session_key "None"`, which hits the
session's own history when the resolved session id is the string
`"None"`. -/
def ask (tok : String → Nat) (parse : String → Option ParsedPayload)
    (provider now freshId : String)
    (completion : Except String String)
    (session_id : Option String) (action context question : String)
    (history_override : Option (List Msg))
    (st : RedisState) : Except String AskResult × RedisState :=
  let sid := resolve_session_id session_id freshId
  let key := make_session_key sid
  let st1 := st.setSession key (create_session_if_missing now (st.session key))
  let history := history_override.getD
    (get_history_async (st1.lists key) (some (MAX_HISTORY_MESSAGES : Int)))
  let messages := normalize_messages history ++ [⟨"system", system_prompt⟩]
  let ctxPair := safe_context_keyed tok provider context st1
  let user_content := build_user_content action ctxPair.1 question
  let outbound := trim_for_token_limit tok (messages ++ [⟨"user", user_content⟩]) provider
  match completion with
  | .error e => (.error e, ctxPair.2)
  | .ok assistant_text =>
    let parsed := parse_answer parse assistant_text
    let st2 := ctxPair.2
    let st3 := st2.setSession key (append_message_session (st2.session key) "user" user_content)
    let st4 := st3.setSession key (append_message_session (st3.session key) "assistant" parsed.1)
    (.ok ⟨action, parsed.1, parsed.2, sid⟩, st4)

/-- A session whose key is exactly the `summarize_and_store(None, ...)`
target, holding one earlier message. -/
def noneAliasedStore : RedisState :=
  { lists := fun k =>
      if k = make_session_key "None" then [Entry.ok ⟨"user", "earlier question"⟩] else [],
    listTTL := fun k =>
      if k = make_session_key "None" then some SESSION_TTL_SECONDS else none,
    meta := fun k => if k = make_session_key "None" then some "0.0" else none,
    metaTTL := fun k =>
      if k = make_session_key "None" then some SESSION_TTL_SECONDS else none }

/-- C9 as stated is false: a request with the caller-supplied session id
`"None"` and an over-trigger context has its stored history deleted and
replaced by the context summary (via `save_history(None, ...)`, which keys
to the same `"aichatNone"`) BEFORE the completion call fails — the session
history is not unchanged. -/
theorem ask_provider_error_none_alias_counterexample :
    (ask (fun _ => 6000) (fun _ => none) "groq" "1.0" "fresh"
          (Except.error "boom") (some "None") "qa" "doc" "q" none
          noneAliasedStore).2.lists (make_session_key "None")
        ≠ noneAliasedStore.lists (make_session_key "None") ∧
      (ask (fun _ => 6000) (fun _ => none) "groq" "1.0" "fresh"
          (Except.error "boom") (some "None") "qa" "doc" "q" none
          noneAliasedStore).2.lists (make_session_key "None")
        = [Entry.ok ⟨"system", "Summary of earlier conversation: doc"⟩] := by
  constructor
  · decide
  · decide

/-- C9, amended with the alias proviso: when the external completion call
fails and the resolved session id is not the literal string `"None"`
(whose key aliases the `summarize_and_store(None, ...)` target), `ask`
re-raises the error to the caller and the session's stored history is
unchanged — both `append_message` calls come after the
`await call_model(...)` and `create_session_if_missing` never changes the
log, while `safe_context`'s only write lands on the distinct
`make_session_key "None"` location. -/
theorem ask_provider_error_preserves_history (tok : String → Nat)
    (parse : String → Option ParsedPayload) (provider now freshId e : String)
    (session_id : Option String) (action context question : String)
    (history_override : Option (List Msg)) (st : RedisState)
    (hsid : resolve_session_id session_id freshId ≠ "None") :
    (ask tok parse provider now freshId (Except.error e) session_id action
        context question history_override st).1 = Except.error e ∧
      (ask tok parse provider now freshId (Except.error e) session_id action
          context question history_override st).2.lists
          (make_session_key (resolve_session_id session_id freshId))
        = st.lists (make_session_key (resolve_session_id session_id freshId)) := by
  have hkey : make_session_key (resolve_session_id session_id freshId)
      ≠ make_session_key "None" := fun hk => hsid (make_session_key_inj hk)
  constructor
  · simp [ask]
  · by_cases hover : SUMMARY_TRIGGER provider < tok context
    · simp [ask, safe_context_keyed, hover, summarize_and_store_keyed,
        save_history_keyed, RedisState.setSession, RedisState.session,
        create_session_preserves_log, hkey]
    · simp [ask, safe_context_keyed, hover, RedisState.setSession,
        RedisState.session, create_session_preserves_log, hkey]

/-- Concrete instance of the amended C9: a failed completion for session
`"sess"` (whose key does not alias the `None` target) leaves the stored
history of that session exactly as it was. -/
theorem ask_provider_error_preserves_history_witness :
    resolve_session_id (some "sess") "fresh" ≠ "None" ∧
      (ask (fun _ => 1) (fun _ => none) "groq" "0.0" "fresh"
          (Except.error "boom") (some "sess") "qa" "doc" "q" none
          emptyRedis).1 = Except.error "boom" ∧
      (ask (fun _ => 1) (fun _ => none) "groq" "0.0" "fresh"
          (Except.error "boom") (some "sess") "qa" "doc" "q" none
          emptyRedis).2.lists
          (make_session_key (resolve_session_id (some "sess") "fresh"))
        = emptyRedis.lists
            (make_session_key (resolve_session_id (some "sess") "fresh")) := by
  have h := ask_provider_error_preserves_history (fun _ => 1) (fun _ => none)
    "groq" "0.0" "fresh" "boom" (some "sess") "qa" "doc" "q" none emptyRedis
    (by decide)
  exact ⟨by decide, h.1, h.2⟩

theorem extract_json_empty (parse : String → Option ParsedPayload)
    (text : String)
    (h : pyFind text '\x7b' = -1 ∨ pyRfind text '\x7d' = -1 ∨
      ∀ span, parse span = none) :
    extract_json_from_text parse text = (none, "") := by
  unfold extract_json_from_text
  rcases h with h | h | h
  · rw [if_neg (by simp [h])]
  · rw [if_neg (by simp [h])]
  · by_cases hc : pyFind text '\x7b' ≠ -1 ∧ pyRfind text '\x7d' ≠ -1 ∧
        pyFind text '\x7b' < pyRfind text '\x7d'
    · rw [if_pos hc, h]
    · rw [if_neg hc]

/-- C3: partially refuted.  On model output with no parseable JSON (no `{`,
no `}`, or an unparseable span), `extract_json_from_text` does return the
empty result without raising — but the orchestrator's "fallback" never
fires: `parsed.get("answer", "")` on the empty dict returns `""` without
raising, so the `except` branch that would set the answer to the raw text
is unreachable and `ask` returns `response = ""` (not the raw model text)
with `suggestions = []`. -/
theorem ask_no_json_yields_empty_response (parse : String → Option ParsedPayload)
    (text : String)
    (h : pyFind text '\x7b' = -1 ∨ pyRfind text '\x7d' = -1 ∨
      ∀ span, parse span = none) :
    extract_json_from_text parse text = (none, "") ∧
      parse_answer parse text = ("", []) ∧
      ∀ (tok : String → Nat) (provider now freshId : String)
        (session_id : Option String) (action context question : String)
        (history_override : Option (List Msg)) (st : RedisState),
        (ask tok parse provider now freshId (Except.ok text) session_id action
            context question history_override st).1
          = Except.ok ⟨action, "", [], resolve_session_id session_id freshId⟩ := by
  have hext := extract_json_empty parse text h
  have hpa : parse_answer parse text = ("", []) := by
    unfold parse_answer
    rw [hext]
    decide
  refine ⟨hext, hpa, ?_⟩
  intro tok provider now freshId session_id action context question history_override st
  simp [ask, hpa]

/-- Concrete instance of C3's analysis: on the model text `"no json here"`
the extractor returns the empty payload, and `ask` returns the empty string
as the response — which is NOT the raw model text — with no suggestions. -/
theorem ask_no_json_yields_empty_response_witness :
    (pyFind "no json here" '\x7b' = -1 ∨
        pyRfind "no json here" '\x7d' = -1 ∨
        ∀ span, (fun _ : String => (none : Option ParsedPayload)) span = none) ∧
      extract_json_from_text (fun _ => none) "no json here" = (none, "") ∧
      parse_answer (fun _ => none) "no json here" = ("", []) ∧
      ("" : String) ≠ "no json here" ∧
      (ask (fun _ => 1) (fun _ => none) "groq" "0.0" "fresh-id"
          (Except.ok "no json here") (some "sess") "qa" "ctx" "q" none
          emptyRedis).1
        = Except.ok ⟨"qa", "", [], resolve_session_id (some "sess") "fresh-id"⟩ := by
  have h := ask_no_json_yields_empty_response (fun _ => none) "no json here"
    (Or.inl (by decide))
  exact ⟨Or.inl (by decide), h.1, h.2.1, by decide,
    h.2.2 (fun _ => 1) "groq" "0.0" "fresh-id" (some "sess") "qa" "ctx" "q" none
      emptyRedis⟩

end ChatCore
